import Mathlib

/-!
Verification of the website-chatbot content-extraction pipeline and
conversation manager (`website_chatbot.py`).

The HTML document tree handed to the extractor by the parser is modelled as a
mutually inductive tree of text nodes and elements.  Python string operations
(`str.strip`, `str.lower`, `str.startswith`, `str.split`, `str.join`, slicing)
are modelled by structurally recursive functions over the character list of a
string, so that every definition evaluates on concrete inputs.
-/

/-! Section: Python string primitives. -/

/-- Characters removed by Python's `str.strip()` with no argument. -/
def pyIsSpace (c : Char) : Bool :=
  c = ' ' || c = '\t' || c = '\n' || c = '\r' || c = '\x0b' || c = '\x0c'

/-- Python `s.strip()`: drop leading and trailing whitespace. -/
def pyStrip (s : String) : String :=
  ⟨((s.data.dropWhile pyIsSpace).reverse.dropWhile pyIsSpace).reverse⟩

/-- Python `s.lower()`. -/
def pyLower (s : String) : String := ⟨s.data.map Char.toLower⟩

/-- Does the first character list start with the second? -/
def listStarts : List Char → List Char → Bool
  | _, [] => true
  | [], _ :: _ => false
  | a :: as, b :: bs => a = b && listStarts as bs

/-- Python `s.startswith(pat)`. -/
def pyStarts (s pat : String) : Bool := listStarts s.data pat.data

/-- Does the pattern occur as a contiguous run anywhere in the list? -/
def subAt : List Char → List Char → Bool
  | [], p => p.isEmpty
  | l@(_ :: rest), p => listStarts l p || subAt rest p

/-- Python `pat in s` (substring test). -/
def pyHasSub (s pat : String) : Bool := subAt s.data pat.data

/-- Split a character list on a separator character (Python `str.split(c)`). -/
def splitChar (c : Char) : List Char → List (List Char)
  | [] => [[]]
  | x :: xs =>
      let r := splitChar c xs
      if x = c then [] :: r
      else
        match r with
        | [] => [[x]]
        | h :: t => (x :: h) :: t

/-- Python `s.split('\n')`. -/
def pySplitNl (s : String) : List String := (splitChar '\n' s.data).map (fun l => ⟨l⟩)

/-- Python `sep.join(parts)`. -/
def pyJoin (sep : String) : List String → String
  | [] => ""
  | [a] => a
  | a :: b :: rest => a ++ sep ++ pyJoin sep (b :: rest)

/-- Python `s[:n]` (slicing counts code points, as `List.take` on the data). -/
def pyTake (n : Nat) (s : String) : String := ⟨s.data.take n⟩

/-! Section: the parsed document tree (the BeautifulSoup object). -/

mutual
/-- A node of the parsed HTML tree: a text node, or an element with a tag
name, an attribute list and child nodes. -/
inductive Node where
  | text : String → Node
  | elem : String → List (String × String) → NodeList → Node
/-- A sequence of sibling nodes.  The whole soup is a `NodeList` of roots. -/
inductive NodeList where
  | nil : NodeList
  | cons : Node → NodeList → NodeList
end

/-- Build a `NodeList` from an ordinary list of nodes. -/
def NodeList.ofList : List Node → NodeList
  | [] => .nil
  | n :: ns => .cons n (NodeList.ofList ns)

mutual
/-- All nodes of the subtree in document (pre-)order, the node itself first. -/
def Node.preorder : Node → List Node
  | .text s => [Node.text s]
  | .elem t a c => Node.elem t a c :: NodeList.preorder c
/-- Document-order traversal of a node sequence. -/
def NodeList.preorder : NodeList → List Node
  | .nil => []
  | .cons n ns => n.preorder ++ NodeList.preorder ns
end

mutual
/-- All text segments of the subtree in document order (BeautifulSoup's
`strings`, which includes text inside `script` and `style` elements). -/
def Node.strings : Node → List String
  | .text s => [s]
  | .elem _ _ c => NodeList.strings c
/-- Text segments of a node sequence in document order. -/
def NodeList.strings : NodeList → List String
  | .nil => []
  | .cons n ns => n.strings ++ NodeList.strings ns
end

/-- Is this node an element with the given tag name? -/
def Node.tagIs (t : String) : Node → Bool
  | .text _ => false
  | .elem tg _ _ => tg == t

/-- Is this node an element (of any tag)? -/
def Node.isElem : Node → Bool
  | .text _ => false
  | .elem _ _ _ => true

/-- Look up an attribute value on an element (`tag.get(k)` / `tag[k]`). -/
def Node.attr (k : String) : Node → Option String
  | .text _ => none
  | .elem _ attrs _ => (attrs.find? (fun p => p.1 == k)).map (fun p => p.2)

/-- The tag name and attribute list of an element node. -/
def Node.sig : Node → Option (String × List (String × String))
  | .text _ => none
  | .elem t a _ => some (t, a)

mutual
/-- Remove every element whose tag is in `bad`, together with its whole
subtree: the effect of `for el in soup(bad): el.decompose()` on one node.
Returns `none` when the node itself is removed. -/
def Node.stripTags (bad : List String) : Node → Option Node
  | .text s => some (.text s)
  | .elem t a c =>
      if bad.contains t then none else some (.elem t a (NodeList.stripTags bad c))
/-- In-place removal of all `bad`-tagged elements from a node sequence. -/
def NodeList.stripTags (bad : List String) : NodeList → NodeList
  | .nil => .nil
  | .cons n ns =>
      match Node.stripTags bad n with
      | some m => .cons m (NodeList.stripTags bad ns)
      | none => NodeList.stripTags bad ns
end

mutual
/-- Holds iff no element of the subtree has a tag in `bad`. -/
def Node.noBadTags (bad : List String) : Node → Bool
  | .text _ => true
  | .elem t _ c => !bad.contains t && NodeList.noBadTags bad c
/-- Holds iff no element of the node sequence has a tag in `bad`. -/
def NodeList.noBadTags (bad : List String) : NodeList → Bool
  | .nil => true
  | .cons n ns => Node.noBadTags bad n && NodeList.noBadTags bad ns
end

mutual
/-- Tag/attribute pairs of all elements of the subtree in document order. -/
def Node.elemSigs : Node → List (String × List (String × String))
  | .text _ => []
  | .elem t a c => (t, a) :: NodeList.elemSigs c
/-- Tag/attribute pairs of all elements of a node sequence, document order. -/
def NodeList.elemSigs : NodeList → List (String × List (String × String))
  | .nil => []
  | .cons n ns => n.elemSigs ++ NodeList.elemSigs ns
end

mutual
/-- Tag/attribute pairs of all elements, each flagged `true` when the element
is a `bad`-tagged element or sits inside one (`inBad` records whether an
enclosing element was already bad). -/
def Node.elemSigsF (bad : List String) (inBad : Bool) :
    Node → List ((String × List (String × String)) × Bool)
  | .text _ => []
  | .elem t a c =>
      ((t, a), inBad || bad.contains t) :: NodeList.elemSigsF bad (inBad || bad.contains t) c
/-- Flagged tag/attribute pairs of a node sequence. -/
def NodeList.elemSigsF (bad : List String) (inBad : Bool) :
    NodeList → List ((String × List (String × String)) × Bool)
  | .nil => []
  | .cons n ns => Node.elemSigsF bad inBad n ++ NodeList.elemSigsF bad inBad ns
end

mutual
/-- Text segments of the subtree, each flagged `true` when it sits inside a
`bad`-tagged element. -/
def Node.stringsF (bad : List String) (inBad : Bool) : Node → List (String × Bool)
  | .text s => [(s, inBad)]
  | .elem t _ c => NodeList.stringsF bad (inBad || bad.contains t) c
/-- Flagged text segments of a node sequence. -/
def NodeList.stringsF (bad : List String) (inBad : Bool) : NodeList → List (String × Bool)
  | .nil => []
  | .cons n ns => Node.stringsF bad inBad n ++ NodeList.stringsF bad inBad ns
end

/-! Section: BeautifulSoup queries used by the scraper. -/

/-- Query `soup.find(t)`: first element with tag `t` in document order. -/
def findTag (soup : NodeList) (t : String) : Option Node :=
  soup.preorder.find? (Node.tagIs t)

/-- Query `soup.find_all(t)`: all elements with tag `t` in document order. -/
def findTagAll (soup : NodeList) (t : String) : List Node :=
  soup.preorder.filter (Node.tagIs t)

/-- Model of `tag.get_text(separator=sep, strip=True)`: join the stripped, non-empty
text segments of the subtree with the separator. -/
def getText (sep : String) (n : Node) : String :=
  pyJoin sep ((n.strings.map pyStrip).filter (fun s => s != ""))

/-- Model of `soup.get_text(separator=sep, strip=True)` over the whole soup. -/
def docText (sep : String) (soup : NodeList) : String :=
  pyJoin sep ((soup.strings.map pyStrip).filter (fun s => s != ""))

/-! Section: WebsiteScraper. -/

/-- Tags removed by `_extract_main_content` before inspection. -/
def badMain : List String := ["script", "style", "nav", "footer", "header"]

/-- Tags removed by `_extract_full_text` before inspection. -/
def badFull : List String := ["script", "style", "nav", "footer"]

/-- Transcribes `WebsiteScraper._extract_title`. -/
def extract_title (soup : NodeList) : String :=
  match findTag soup "title" with
  | some title_tag => getText "" title_tag
  | none => "No title found"

/-- Transcribes `WebsiteScraper._extract_description`:
`soup.find('meta', attrs={'name': 'description'})`, then the `content`
attribute if present and non-empty (Python truthiness). -/
def extract_description (soup : NodeList) : String :=
  match soup.preorder.find? (fun n => n.tagIs "meta" && (n.attr "name" == some "description")) with
  | some meta_desc =>
      match meta_desc.attr "content" with
      | some c => if c != "" then c else "No description found"
      | none => "No description found"
  | none => "No description found"

/-- The lambda `lambda x: x and 'content' in x.lower()` applied to the
`class` attribute value (`none` when the element has no class attribute). -/
def classHasContent : Option String → Bool
  | some x => x != "" && pyHasSub (pyLower x) "content"
  | none => false

/-- The candidate chain of `_extract_main_content`:
`soup.find('main') or soup.find('article') or soup.find('div', class_=...) or soup.body`. -/
def mainCandidate (soup : NodeList) : Option Node :=
  findTag soup "main" <|>
    (findTag soup "article" <|>
      (soup.preorder.find? (fun n => n.tagIs "div" && classHasContent (n.attr "class")) <|>
        findTag soup "body"))

/-- The string computed by `_extract_main_content` from the (already
stripped) soup: select the candidate, take its block-separated text, truncate
to 3000 characters, sentinel when empty or no candidate. -/
def main_content_text (soup : NodeList) : String :=
  match mainCandidate soup with
  | some main_content =>
      let text := getText "\n" main_content
      if text != "" then pyTake 3000 text else "No main content found"
  | none => "No main content found"

/-- Transcribes `WebsiteScraper._extract_main_content`: destructively removes
script/style/nav/footer/header from the soup it receives, then extracts.
Returns the extracted string together with the mutated soup. -/
def extract_main_content (soup : NodeList) : String × NodeList :=
  let soup := NodeList.stripTags badMain soup
  (main_content_text soup, soup)

/-- Heading pairs (level, text) gathered by `_extract_headings`'s loop
`for level in range(1, 7): for heading in soup.find_all(f'h{level}')`. -/
def headingPairs (soup : NodeList) : List (Nat × String) :=
  (List.range' 1 6).flatMap (fun level =>
    (findTagAll soup ("h" ++ Nat.repr level)).map (fun heading => (level, getText "" heading)))

/-- The line `f"H{level}: {heading.get_text(strip=True)}"`. -/
def fmtHeading (p : Nat × String) : String := "H" ++ Nat.repr p.1 ++ ": " ++ p.2

/-- Transcribes `WebsiteScraper._extract_headings`. -/
def extract_headings (soup : NodeList) : String :=
  let headings := (headingPairs soup).map fmtHeading
  if headings != [] then pyJoin "\n" (headings.take 20) else "No headings found"

/-- Query `soup.find_all('a', href=True)`: anchors with an `href` attribute. -/
def anchorsOf (soup : NodeList) : List Node :=
  soup.preorder.filter (fun n => n.tagIs "a" && (n.attr "href").isSome)

/-- Window `soup.find_all('a', href=True)[:15]`: the fixed candidate window. -/
def linkWindow (soup : NodeList) : List Node := (anchorsOf soup).take 15

/-- Visible text `link.get_text(strip=True)` of an anchor. -/
def linkText (link : Node) : String := getText "" link

/-- Attribute `link['href']` (every candidate has the attribute by construction). -/
def linkHref (link : Node) : String := (link.attr "href").getD ""

/-- The candidates of the window that survive the filter
`if text and not href.startswith('#')`. -/
def keptLinks (soup : NodeList) : List Node :=
  (linkWindow soup).filter (fun link => linkText link != "" && !pyStarts (linkHref link) "#")

/-- The line `f"{text}: {href}"`. -/
def fmtLink (link : Node) : String := linkText link ++ ": " ++ linkHref link

/-- Transcribes `WebsiteScraper._extract_links`. -/
def extract_links (soup : NodeList) : String :=
  let links := (keptLinks soup).map fmtLink
  if links != [] then pyJoin "\n" links else "No links found"

/-- The string computed by `_extract_full_text` from the (already stripped)
soup: all text with newline separation, lines trimmed and blank lines
dropped, truncated to 5000 characters, sentinel when empty. -/
def full_text_text (soup : NodeList) : String :=
  let text := docText "\n" soup
  let text := pyJoin "\n" (((pySplitNl text).map pyStrip).filter (fun line => line != ""))
  if text != "" then pyTake 5000 text else "No text found"

/-- Transcribes `WebsiteScraper._extract_full_text`: destructively removes
script/style/nav/footer from the soup it receives, extracts all text, cleans
blank lines, truncates to 5000 characters.  Returns the string together with
the mutated soup. -/
def extract_full_text (soup : NodeList) : String × NodeList :=
  let soup := NodeList.stripTags badFull soup
  (full_text_text soup, soup)

/-- The record built by `WebsiteScraper.scrape_website` (all six keys). -/
structure Extraction where
  title : String
  description : String
  main_content : String
  headings : String
  links : String
  full_text : String
deriving DecidableEq

/-- Transcribes `WebsiteScraper.scrape_website` on an already-parsed document: the dict
literal evaluates its six values left to right, and `_extract_main_content`
and `_extract_full_text` mutate the shared soup as a side effect.  Returns
the record together with the soup as the extractors leave it. -/
def scrape_website (soup : NodeList) : Extraction × NodeList :=
  let title := extract_title soup
  let description := extract_description soup
  let mc := extract_main_content soup
  let soup := mc.2
  let headings := extract_headings soup
  let links := extract_links soup
  let ft := extract_full_text soup
  ({ title := title, description := description, main_content := mc.1,
     headings := headings, links := links, full_text := ft.1 }, ft.2)

/-! Section: Chatbot, context formatter and conversation manager. -/

/-- The ordered (label, field value) pairs `_format_content_for_context`
inspects, in source order: title, description, headings, main content, links. -/
def contextFields (content : Extraction) : List (String × String) :=
  [("Title: ", content.title),
   ("Description: ", content.description),
   ("\nHeadings:\n", content.headings),
   ("\nMain Content:\n", content.main_content),
   ("\nImportant Links:\n", content.links)]

/-- Transcribes `Chatbot._format_content_for_context`: each field is appended to
`context_parts` when it is truthy (non-empty), prefixed by its label; the
parts are joined with a newline. -/
def format_content (content : Extraction) : String :=
  let context_parts : List String := []
  let context_parts :=
    if content.title != "" then context_parts ++ ["Title: " ++ content.title] else context_parts
  let context_parts :=
    if content.description != "" then context_parts ++ ["Description: " ++ content.description]
    else context_parts
  let context_parts :=
    if content.headings != "" then context_parts ++ ["\nHeadings:\n" ++ content.headings]
    else context_parts
  let context_parts :=
    if content.main_content != "" then
      context_parts ++ ["\nMain Content:\n" ++ content.main_content]
    else context_parts
  let context_parts :=
    if content.links != "" then context_parts ++ ["\nImportant Links:\n" ++ content.links]
    else context_parts
  pyJoin "\n" context_parts

/-- A chat message with a role and a content string. -/
structure Msg where
  role : String
  content : String
deriving DecidableEq

/-- The mutable state of `Chatbot`: the conversation history and the formatted
website context. -/
structure ChatbotState where
  conversation_history : List Msg
  website_content : String
deriving DecidableEq

/-- A fresh `Chatbot` after `set_website_context` (empty history). -/
def initState (ctx : String) : ChatbotState :=
  { conversation_history := [], website_content := ctx }

/-- Transcribes `Chatbot.set_website_context`. -/
def set_website_context (st : ChatbotState) (content : Extraction) : ChatbotState :=
  { st with website_content := format_content content }

/-- The system message built by `Chatbot.get_response`. -/
def system_message (ctx : String) : String :=
  "You are a helpful chatbot assistant that answers questions based on the content of a specific website.\n\nWEBSITE CONTENT:\n"
    ++ ctx ++
    "\n\nINSTRUCTIONS:\n- Answer questions using ONLY the information provided in the website content above\n- If the answer is not found in the website content, respond with: \"The requested information is not available on the provided website.\"\n- Be helpful, clear, and concise in your responses\n- Do not use external knowledge or information not present in the website content\n- If relevant, reference specific sections or headings from the website\n- Maintain a friendly and professional tone"

/-- Python `l[-10:]`: the most recent `n` entries of a list. -/
def lastEntries (n : Nat) (l : List Msg) : List Msg := l.drop (l.length - n)

/-- The message list assembled by `Chatbot.get_response`: the system message,
then `self.conversation_history[-10:]`, then the new user input. -/
def prepare_messages (st : ChatbotState) (user_input : String) : List Msg :=
  [{ role := "system", content := system_message st.website_content }] ++
    lastEntries 10 st.conversation_history ++
    [{ role := "user", content := user_input }]

/-- Transcribes `Chatbot.get_response`.  The completion API is an external collaborator
passed as a function from the assembled messages to either a response body or
a failure reason (any exception raised by the call or by reading the
response).  On success the stripped response is appended to the history as a
user/assistant pair; on failure the state is untouched and an error-marked
string is returned. -/
def get_response (st : ChatbotState) (user_input : String)
    (api : List Msg → Except String String) : String × ChatbotState :=
  let messages := prepare_messages st user_input
  match api messages with
  | .ok content =>
      let assistant_response := pyStrip content
      (assistant_response,
        { st with conversation_history := st.conversation_history ++
            [{ role := "user", content := user_input },
             { role := "assistant", content := assistant_response }] })
  | .error e => ("❌ Error generating response: " ++ e, st)

/-- Transcribes `Chatbot.clear_history`. -/
def clear_history (st : ChatbotState) : ChatbotState :=
  { st with conversation_history := [] }

/-- One interaction with the conversation manager: a question (with the
completion collaborator's behaviour) or a clear directive. -/
inductive ChatOp where
  | ask : String → (List Msg → Except String String) → ChatOp
  | clear : ChatOp

/-- Apply one interaction to the chatbot state. -/
def chatStep (st : ChatbotState) : ChatOp → ChatbotState
  | .ask user_input api => (get_response st user_input api).2
  | .clear => clear_history st

/-- Run a sequence of interactions. -/
def runChat : ChatbotState → List ChatOp → ChatbotState
  | st, [] => st
  | st, op :: ops => runChat (chatStep st op) ops

/-! Section: definitions written from the claims, for comparison with the code. -/

/-- Follows claim C4's words: the content-class step selects the first
element of any tag whose class list contains "content" case-insensitively
(the code searches `div` elements only). -/
def specMainCandidateAnyTag (soup : NodeList) : Option Node :=
  findTag soup "main" <|>
    (findTag soup "article" <|>
      (soup.preorder.find? (fun n => n.isElem && classHasContent (n.attr "class")) <|>
        findTag soup "body"))

/-- The amended claim C4 as a priority cascade: a `main` element, else an
`article` element, else the first `div` whose class list contains "content"
case-insensitively, else the document body. -/
def specMainCandidateDiv (soup : NodeList) : Option Node :=
  match findTag soup "main" with
  | some m => some m
  | none =>
      match findTag soup "article" with
      | some a => some a
      | none =>
          match soup.preorder.find? (fun n => n.tagIs "div" && classHasContent (n.attr "class")) with
          | some d => some d
          | none => findTag soup "body"

/-- The amended claim C1 as written: the labelled parts of exactly those
context fields whose value is non-empty, in the fixed source order. -/
def labeledParts (content : Extraction) : List String :=
  ((contextFields content).filter (fun p => p.2 != "")).map (fun p => p.1 ++ p.2)

/-! Section: concrete documents for counterexamples and witnesses. -/

/-- A record in which every field is its sentinel value. -/
def allSentinel : Extraction :=
  { title := "No title found", description := "No description found",
    main_content := "No main content found", headings := "No headings found",
    links := "No links found", full_text := "No text found" }

/-- A page whose `title` element sits inside a `footer`. -/
def docTitleInFooter : NodeList :=
  NodeList.ofList
    [Node.elem "footer" [] (NodeList.ofList [Node.elem "title" [] (NodeList.ofList [Node.text "Hid"])]),
     Node.elem "body" [] (NodeList.ofList [Node.text "Hello"])]

/-- A page with an empty `title` element. -/
def docEmptyTitle : NodeList :=
  NodeList.ofList
    [Node.elem "title" [] NodeList.nil,
     Node.elem "body" [] (NodeList.ofList [Node.text "B"])]

/-- A page whose only "content"-classed element is a `section`, not a `div`. -/
def docSectionContent : NodeList :=
  NodeList.ofList
    [Node.elem "section" [("class", "content")] (NodeList.ofList [Node.text "X"]),
     Node.elem "body" [] (NodeList.ofList [Node.text "B"])]

/-- A page with a single qualifying link. -/
def docOneLink : NodeList :=
  NodeList.ofList
    [Node.elem "body" []
      (NodeList.ofList [Node.elem "a" [("href", "/about")] (NodeList.ofList [Node.text "About"])])]

/-- The anchor node of `docOneLink`. -/
def aboutAnchor : Node :=
  Node.elem "a" [("href", "/about")] (NodeList.ofList [Node.text "About"])

/-! Section: helper observations on optional nodes (proof infrastructure). -/

/-- Text segments of an optional node (none when the node was removed). -/
def optStrings : Option Node → List String
  | some m => m.strings
  | none => []

/-- Tag/attribute pairs of an optional node. -/
def optElemSigs : Option Node → List (String × List (String × String))
  | some m => m.elemSigs
  | none => []

/-- Bad-tag freedom of an optional node (vacuous for a removed node). -/
def optNoBad (bad : List String) : Option Node → Bool
  | some m => Node.noBadTags bad m
  | none => true

/-! Section: general lemmas about the string primitives. -/

theorem append_ne_left (a b : String) (h : a ≠ "") : a ++ b ≠ "" := by
  intro he
  apply h
  have hd := congrArg String.data he
  rw [String.data_append] at hd
  exact String.ext (List.append_eq_nil.mp hd).1

theorem append_ne_right (a b : String) (h : b ≠ "") : a ++ b ≠ "" := by
  intro he
  apply h
  have hd := congrArg String.data he
  rw [String.data_append] at hd
  exact String.ext (List.append_eq_nil.mp hd).2

theorem pyJoin_ne (sep : String) :
    ∀ parts, parts ≠ [] → (∀ p ∈ parts, p ≠ "") → pyJoin sep parts ≠ ""
  | [], h, _ => absurd rfl h
  | [a], _, hp => by simpa [pyJoin] using hp a (by simp)
  | a :: b :: rest, _, hp => by
      have ha : a ≠ "" := hp a (by simp)
      show a ++ sep ++ pyJoin sep (b :: rest) ≠ ""
      exact append_ne_left _ _ (append_ne_left _ _ ha)

theorem pyTake_ne (n : Nat) (s : String) (hn : n ≠ 0) (h : s ≠ "") : pyTake n s ≠ "" := by
  intro he
  have hd := congrArg String.data he
  have : s.data.take n = [] := hd
  rcases List.take_eq_nil_iff.mp this with h1 | h2
  · exact hn h1
  · exact h (String.ext h2)

theorem pyTake_len (n : Nat) (s : String) : (pyTake n s).length ≤ n := by
  show (s.data.take n).length ≤ n
  rw [List.length_take]
  exact min_le_left _ _

/-! Section: general lemmas about stripping the tree. -/

mutual
theorem Node.noBadTags_stripTags (bad : List String) :
    ∀ n : Node, optNoBad bad (Node.stripTags bad n) = true
  | .text _ => rfl
  | .elem t a c => by
      by_cases hb : t ∈ bad
      · simp [Node.stripTags, hb, optNoBad]
      · simpa [Node.stripTags, hb, optNoBad, Node.noBadTags] using
          NodeList.noBadTags_stripTagsList bad c
theorem NodeList.noBadTags_stripTagsList (bad : List String) :
    ∀ ns : NodeList, NodeList.noBadTags bad (NodeList.stripTags bad ns) = true
  | .nil => rfl
  | .cons n ns => by
      have hn := Node.noBadTags_stripTags bad n
      have hns := NodeList.noBadTags_stripTagsList bad ns
      cases h : Node.stripTags bad n with
      | none => simpa [NodeList.stripTags, h] using hns
      | some m =>
          rw [h] at hn
          simp only [optNoBad] at hn
          simp [NodeList.stripTags, h, NodeList.noBadTags, hn, hns]
end

mutual
theorem Node.stripTags_of_noBad (bad bad' : List String)
    (hsub : ∀ t, bad'.contains t = true → bad.contains t = true) :
    ∀ n : Node, Node.noBadTags bad n = true → Node.stripTags bad' n = some n
  | .text _, _ => rfl
  | .elem t a c, h => by
      simp only [Node.noBadTags, Bool.and_eq_true, Bool.not_eq_true'] at h
      have hmem : t ∉ bad := by simpa using h.1
      have hmem' : t ∉ bad' := fun hc => hmem (by simpa using hsub t (by simpa using hc))
      simp [Node.stripTags, hmem', NodeList.stripTags_of_noBadList bad bad' hsub c h.2]
theorem NodeList.stripTags_of_noBadList (bad bad' : List String)
    (hsub : ∀ t, bad'.contains t = true → bad.contains t = true) :
    ∀ ns : NodeList, NodeList.noBadTags bad ns = true → NodeList.stripTags bad' ns = ns
  | .nil, _ => rfl
  | .cons n ns, h => by
      simp only [NodeList.noBadTags, Bool.and_eq_true] at h
      simp [NodeList.stripTags, Node.stripTags_of_noBad bad bad' hsub n h.1,
        NodeList.stripTags_of_noBadList bad bad' hsub ns h.2]
end

theorem badFull_sub_badMain : ∀ t, badFull.contains t = true → badMain.contains t = true := by
  intro t h
  have h' : t ∈ badFull := by simpa using h
  have hm : t ∈ badMain := by
    simp only [badFull, List.mem_cons, List.not_mem_nil, or_false] at h'
    simp only [badMain, List.mem_cons]
    tauto
  simpa using hm

/-! Section: provenance of the surviving text and elements after a strip. -/

mutual
theorem Node.stringsF_allBad (bad : List String) :
    ∀ n : Node, (Node.stringsF bad true n).all (fun p => p.2) = true
  | .text _ => rfl
  | .elem t a c => by
      simpa [Node.stringsF] using NodeList.stringsF_allBadList bad c
theorem NodeList.stringsF_allBadList (bad : List String) :
    ∀ ns : NodeList, (NodeList.stringsF bad true ns).all (fun p => p.2) = true
  | .nil => rfl
  | .cons n ns => by
      simp [NodeList.stringsF, List.all_append, Node.stringsF_allBad bad n,
        NodeList.stringsF_allBadList bad ns]
end

mutual
theorem Node.elemSigsF_allBad (bad : List String) :
    ∀ n : Node, (Node.elemSigsF bad true n).all (fun p => p.2) = true
  | .text _ => rfl
  | .elem t a c => by
      simpa [Node.elemSigsF] using NodeList.elemSigsF_allBadList bad c
theorem NodeList.elemSigsF_allBadList (bad : List String) :
    ∀ ns : NodeList, (NodeList.elemSigsF bad true ns).all (fun p => p.2) = true
  | .nil => rfl
  | .cons n ns => by
      simp [NodeList.elemSigsF, List.all_append, Node.elemSigsF_allBad bad n,
        NodeList.elemSigsF_allBadList bad ns]
end

mutual
theorem Node.strings_stripTags (bad : List String) :
    ∀ n : Node, optStrings (Node.stripTags bad n)
      = ((Node.stringsF bad false n).filter (fun p => !p.2)).map Prod.fst
  | .text _ => rfl
  | .elem t a c => by
      by_cases hb : t ∈ bad
      · have hall := NodeList.stringsF_allBadList bad c
        have hfil : (NodeList.stringsF bad true c).filter (fun p => !p.2) = [] :=
          List.filter_eq_nil_iff.mpr (fun p hp => by
            have := List.all_eq_true.mp hall p hp
            simp at this
            simp [this])
        simp [Node.stripTags, hb, optStrings, Node.stringsF, hfil]
      · simpa [Node.stripTags, hb, optStrings, Node.strings, Node.stringsF] using
          NodeList.strings_stripTagsList bad c
theorem NodeList.strings_stripTagsList (bad : List String) :
    ∀ ns : NodeList, (NodeList.stripTags bad ns).strings
      = ((NodeList.stringsF bad false ns).filter (fun p => !p.2)).map Prod.fst
  | .nil => rfl
  | .cons n ns => by
      have hn := Node.strings_stripTags bad n
      have hns := NodeList.strings_stripTagsList bad ns
      cases h : Node.stripTags bad n with
      | none =>
          rw [h] at hn
          simp only [optStrings] at hn
          simp only [NodeList.stripTags, h, NodeList.stringsF, List.filter_append,
            List.map_append, ← hn, List.nil_append]
          exact hns
      | some m =>
          rw [h] at hn
          simp only [optStrings] at hn
          simp only [NodeList.stripTags, h, NodeList.stringsF, List.filter_append,
            List.map_append, NodeList.strings, ← hn]
          rw [hns]
end

mutual
theorem Node.elemSigs_stripTags (bad : List String) :
    ∀ n : Node, optElemSigs (Node.stripTags bad n)
      = ((Node.elemSigsF bad false n).filter (fun p => !p.2)).map Prod.fst
  | .text _ => rfl
  | .elem t a c => by
      by_cases hb : t ∈ bad
      · have hall := NodeList.elemSigsF_allBadList bad c
        have hfil : (NodeList.elemSigsF bad true c).filter (fun p => !p.2) = [] :=
          List.filter_eq_nil_iff.mpr (fun p hp => by
            have := List.all_eq_true.mp hall p hp
            simp at this
            simp [this])
        simp [Node.stripTags, hb, optElemSigs, Node.elemSigsF, hfil]
      · simpa [Node.stripTags, hb, optElemSigs, Node.elemSigs, Node.elemSigsF] using
          NodeList.elemSigs_stripTagsList bad c
theorem NodeList.elemSigs_stripTagsList (bad : List String) :
    ∀ ns : NodeList, (NodeList.stripTags bad ns).elemSigs
      = ((NodeList.elemSigsF bad false ns).filter (fun p => !p.2)).map Prod.fst
  | .nil => rfl
  | .cons n ns => by
      have hn := Node.elemSigs_stripTags bad n
      have hns := NodeList.elemSigs_stripTagsList bad ns
      cases h : Node.stripTags bad n with
      | none =>
          rw [h] at hn
          simp only [optElemSigs] at hn
          simp only [NodeList.stripTags, h, NodeList.elemSigsF, List.filter_append,
            List.map_append, ← hn, List.nil_append]
          exact hns
      | some m =>
          rw [h] at hn
          simp only [optElemSigs] at hn
          simp only [NodeList.stripTags, h, NodeList.elemSigsF, List.filter_append,
            List.map_append, NodeList.elemSigs, ← hn]
          rw [hns]
end

mutual
theorem Node.elemSigs_preorder : ∀ n : Node, n.preorder.filterMap Node.sig = n.elemSigs
  | .text _ => rfl
  | .elem t a c => by
      simpa [Node.preorder, Node.elemSigs, List.filterMap_cons, Node.sig] using
        NodeList.elemSigs_preorderList c
theorem NodeList.elemSigs_preorderList : ∀ ns : NodeList, ns.preorder.filterMap Node.sig = ns.elemSigs
  | .nil => rfl
  | .cons n ns => by
      simp [NodeList.preorder, List.filterMap_append, NodeList.elemSigs,
        Node.elemSigs_preorder n, NodeList.elemSigs_preorderList ns]
end

/-! Section: per-extractor facts feeding the claims. -/

theorem extract_title_spec (soup : NodeList) :
    extract_title soup = "No title found" ∨
      ∃ t, findTag soup "title" = some t ∧ extract_title soup = getText "" t := by
  unfold extract_title
  cases h : findTag soup "title" with
  | none => exact Or.inl rfl
  | some t => exact Or.inr ⟨t, rfl, rfl⟩

theorem extract_description_spec (soup : NodeList) :
    extract_description soup = "No description found" ∨ extract_description soup ≠ "" := by
  unfold extract_description
  split
  · split
    · rename_i c hc
      by_cases hne : c = ""
      · simp [hne]
      · right
        simp [hne]
    · exact Or.inl rfl
  · exact Or.inl rfl

theorem truncate_spec (n : Nat) (hn : n ≠ 0) (text sentinel : String) :
    (if text != "" then pyTake n text else sentinel) = sentinel ∨
      (if text != "" then pyTake n text else sentinel) ≠ "" := by
  by_cases h : text = ""
  · simp [h]
  · right
    simpa [h] using pyTake_ne n text hn h

theorem truncate_len (n : Nat) (text sentinel : String) (hs : sentinel.length ≤ n) :
    (if text != "" then pyTake n text else sentinel).length ≤ n := by
  by_cases h : text = ""
  · simpa [h] using hs
  · simpa [h] using pyTake_len n text

theorem main_content_text_spec (soup : NodeList) :
    main_content_text soup = "No main content found" ∨ main_content_text soup ≠ "" := by
  unfold main_content_text
  split
  · exact truncate_spec 3000 (by decide) _ _
  · exact Or.inl rfl

theorem main_content_text_len (soup : NodeList) : (main_content_text soup).length ≤ 3000 := by
  unfold main_content_text
  split
  · exact truncate_len 3000 _ _ (by decide)
  · decide

theorem extract_main_content_spec (soup : NodeList) :
    (extract_main_content soup).1 = "No main content found" ∨
      (extract_main_content soup).1 ≠ "" :=
  main_content_text_spec (NodeList.stripTags badMain soup)

theorem extract_main_content_len (soup : NodeList) :
    (extract_main_content soup).1.length ≤ 3000 :=
  main_content_text_len (NodeList.stripTags badMain soup)

theorem full_text_text_spec (soup : NodeList) :
    full_text_text soup = "No text found" ∨ full_text_text soup ≠ "" :=
  truncate_spec 5000 (by decide) _ _

theorem full_text_text_len (soup : NodeList) : (full_text_text soup).length ≤ 5000 :=
  truncate_len 5000 _ _ (by decide)

theorem extract_full_text_spec (soup : NodeList) :
    (extract_full_text soup).1 = "No text found" ∨ (extract_full_text soup).1 ≠ "" :=
  full_text_text_spec (NodeList.stripTags badFull soup)

theorem extract_full_text_len (soup : NodeList) :
    (extract_full_text soup).1.length ≤ 5000 :=
  full_text_text_len (NodeList.stripTags badFull soup)

theorem fmtHeading_ne (p : Nat × String) : fmtHeading p ≠ "" := by
  unfold fmtHeading
  exact append_ne_left _ _ (append_ne_right _ _ (by decide))

theorem extract_headings_spec (soup : NodeList) :
    extract_headings soup = "No headings found" ∨ extract_headings soup ≠ "" := by
  unfold extract_headings
  by_cases h : (headingPairs soup).map fmtHeading = []
  · simp [h]
  · right
    simp only [bne_iff_ne, ne_eq, h, not_false_eq_true, if_true]
    apply pyJoin_ne
    · intro htake
      rcases List.take_eq_nil_iff.mp htake with h20 | hnil
      · exact absurd h20 (by decide)
      · exact h hnil
    · intro p hp
      rcases List.mem_map.mp (List.mem_of_mem_take hp) with ⟨q, _, rfl⟩
      exact fmtHeading_ne q

theorem fmtLink_ne (link : Node) : fmtLink link ≠ "" := by
  unfold fmtLink
  exact append_ne_left _ _ (append_ne_right _ _ (by decide))

theorem extract_links_spec (soup : NodeList) :
    extract_links soup = "No links found" ∨ extract_links soup ≠ "" := by
  unfold extract_links
  by_cases h : (keptLinks soup).map fmtLink = []
  · simp [h]
  · right
    simp only [bne_iff_ne, ne_eq, h, not_false_eq_true, if_true]
    apply pyJoin_ne _ _ h
    intro p hp
    rcases List.mem_map.mp hp with ⟨q, _, rfl⟩
    exact fmtLink_ne q

theorem flatMap_levels_pairwise (f : Nat → List (Nat × String))
    (hf : ∀ lv p, p ∈ f lv → p.1 = lv) :
    ∀ (k a : Nat), ((List.range' a k).flatMap f).Pairwise (fun p q => p.1 ≤ q.1)
  | 0, a => by simp
  | k + 1, a => by
      rw [List.range'_succ, List.flatMap_cons, List.pairwise_append]
      refine ⟨?_, flatMap_levels_pairwise f hf k (a + 1), ?_⟩
      · exact List.pairwise_of_forall_mem_list
          (fun p hp q hq => by rw [hf a p hp, hf a q hq])
      · intro p hp q hq
        rcases List.mem_flatMap.mp hq with ⟨lv, hlv, hqlv⟩
        have h1 := hf a p hp
        have h2 := hf lv q hqlv
        have h3 := (List.mem_range'_1.mp hlv).1
        omega

theorem headingPairs_pairwise (soup : NodeList) :
    (headingPairs soup).Pairwise (fun p q => p.1 ≤ q.1) := by
  exact flatMap_levels_pairwise _
    (fun lv p hp => by rcases List.mem_map.mp hp with ⟨h, _, rfl⟩; rfl) 6 1

theorem labeledParts_mem_ne (content : Extraction) :
    ∀ p ∈ labeledParts content, p ≠ "" := by
  intro p hp
  rcases List.mem_map.mp hp with ⟨q, hq, rfl⟩
  have hmem := (List.mem_filter.mp hq).1
  simp only [contextFields, List.mem_cons, List.not_mem_nil, or_false] at hmem
  rcases hmem with rfl | rfl | rfl | rfl | rfl
  · exact append_ne_left "Title: " _ (by decide)
  · exact append_ne_left "Description: " _ (by decide)
  · exact append_ne_left "\nHeadings:\n" _ (by decide)
  · exact append_ne_left "\nMain Content:\n" _ (by decide)
  · exact append_ne_left "\nImportant Links:\n" _ (by decide)

theorem labeledParts_eq_nil (content : Extraction) :
    labeledParts content = [] ↔
      content.title = "" ∧ content.description = "" ∧ content.headings = "" ∧
        content.main_content = "" ∧ content.links = "" := by
  unfold labeledParts
  rw [List.map_eq_nil_iff, List.filter_eq_nil_iff]
  simp [contextFields, and_assoc]

theorem format_content_parts (content : Extraction) :
    format_content content = pyJoin "\n" (labeledParts content) := by
  by_cases h1 : content.title = "" <;> by_cases h2 : content.description = "" <;>
    by_cases h3 : content.headings = "" <;> by_cases h4 : content.main_content = "" <;>
      by_cases h5 : content.links = "" <;>
        simp [format_content, labeledParts, contextFields, h1, h2, h3, h4, h5]

theorem runChat_parity : ∀ (ops : List ChatOp) (st : ChatbotState),
    st.conversation_history.length % 2 = 0 →
    (runChat st ops).conversation_history.length % 2 = 0
  | [], _, h => h
  | op :: ops, st, h => by
      apply runChat_parity ops
      cases op with
      | clear => simp [chatStep, clear_history]
      | ask user_input api =>
          cases hr : api (prepare_messages st user_input) with
          | ok c =>
              simp [chatStep, get_response, hr, List.length_append]
              omega
          | error e => simpa [chatStep, get_response, hr] using h

/-! Section: the claims. -/

/-- Claim C1, counterexample: the formatter tests truthiness (non-emptiness),
not the sentinel, so a record in which every field is the sentinel formats to
a non-empty context that contains every sentinel line — not to the empty
string the claim requires. -/
theorem claim1_counterexample :
    format_content allSentinel ≠ "" ∧
    format_content allSentinel =
      "Title: No title found\nDescription: No description found\n\nHeadings:\nNo headings found\n\nMain Content:\nNo main content found\n\nImportant Links:\nNo links found" :=
  ⟨by decide, by decide⟩

/-- Claim C1, amended: the grounding context is the newline-join, in the
fixed order title, description, headings, main content, links, of exactly
those fields whose value is non-empty (sentinel values are non-empty and are
included); it is empty iff all five context fields are the empty string. -/
theorem claim1_format_truthy (content : Extraction) :
    format_content content = pyJoin "\n" (labeledParts content) ∧
    (format_content content = "" ↔
      content.title = "" ∧ content.description = "" ∧ content.headings = "" ∧
        content.main_content = "" ∧ content.links = "") := by
  refine ⟨format_content_parts content, ?_, ?_⟩
  · intro he
    rw [format_content_parts content] at he
    rcases hl : labeledParts content with _ | ⟨p, rest⟩
    · exact (labeledParts_eq_nil content).mp hl
    · rw [hl] at he
      exact absurd he (pyJoin_ne "\n" (p :: rest) (by simp)
        (fun q hq => labeledParts_mem_ne content q (hl ▸ hq)))
  · intro hall
    rw [format_content_parts content, (labeledParts_eq_nil content).mpr hall]
    rfl

/-- Claim C2, counterexample: scraping `docTitleInFooter` removes its
`footer` element (and the `title` inside it) from the caller-visible tree,
and re-extracting from that tree yields a different record (the title becomes
the sentinel), so extraction is neither side-effect-free nor idempotent. -/
theorem claim2_counterexample :
    NodeList.elemSigs ((scrape_website docTitleInFooter).2) ≠
      NodeList.elemSigs docTitleInFooter ∧
    (scrape_website ((scrape_website docTitleInFooter).2)).1.title ≠
      (scrape_website docTitleInFooter).1.title :=
  ⟨by decide, by decide⟩

/-- Claim C2, amended: the removals are performed in place on the caller's
tree, not on a working copy: after extraction the caller-visible soup is
exactly the original with every script, style, nav, footer and header
element removed, and in particular contains none of those elements. -/
theorem claim2_strip_in_place (soup : NodeList) :
    (scrape_website soup).2 = NodeList.stripTags badMain soup ∧
    NodeList.noBadTags badMain ((scrape_website soup).2) = true := by
  have h1 : NodeList.noBadTags badMain (NodeList.stripTags badMain soup) = true :=
    NodeList.noBadTags_stripTagsList badMain soup
  have h2 : (scrape_website soup).2
      = NodeList.stripTags badFull (NodeList.stripTags badMain soup) := rfl
  have h3 : NodeList.stripTags badFull (NodeList.stripTags badMain soup)
      = NodeList.stripTags badMain soup :=
    NodeList.stripTags_of_noBadList badMain badFull badFull_sub_badMain _ h1
  exact ⟨h2.trans h3, by rw [h2, h3]; exact h1⟩

/-- Claim C3, counterexample: a document whose `title` element is present but
empty yields a `title` field that is the empty string — neither the sentinel
nor non-empty text, contradicting the claimed invariant. -/
theorem claim3_counterexample :
    (scrape_website docEmptyTitle).1.title = "" ∧
    (scrape_website docEmptyTitle).1.title ≠ "No title found" :=
  ⟨by decide, by decide⟩

/-- Claim C3, amended: all six fields are always present; description,
main content, headings, links and full text are each either their sentinel or
non-empty text; the title is either its sentinel or the extracted text of the
first title element, which may be empty. -/
theorem claim3_fields (soup : NodeList) :
    ((scrape_website soup).1.title = "No title found" ∨
      ∃ t, findTag soup "title" = some t ∧ (scrape_website soup).1.title = getText "" t) ∧
    ((scrape_website soup).1.description = "No description found" ∨
      (scrape_website soup).1.description ≠ "") ∧
    ((scrape_website soup).1.main_content = "No main content found" ∨
      (scrape_website soup).1.main_content ≠ "") ∧
    ((scrape_website soup).1.headings = "No headings found" ∨
      (scrape_website soup).1.headings ≠ "") ∧
    ((scrape_website soup).1.links = "No links found" ∨
      (scrape_website soup).1.links ≠ "") ∧
    ((scrape_website soup).1.full_text = "No text found" ∨
      (scrape_website soup).1.full_text ≠ "") := by
  refine ⟨extract_title_spec soup, extract_description_spec soup,
    extract_main_content_spec soup, ?_, ?_, extract_full_text_spec ((extract_main_content soup).2)⟩
  · exact extract_headings_spec ((extract_main_content soup).2)
  · exact extract_links_spec ((extract_main_content soup).2)

/-- Claim C4, counterexample: on a page whose only element with a "content"
class is a `section`, the code falls through to the document body (the field
is "B") while the claim's any-tag rule selects the section (text "X"): the
code searches only `div` elements in the class step. -/
theorem claim4_counterexample :
    (scrape_website docSectionContent).1.main_content = "B" ∧
    (specMainCandidateAnyTag (NodeList.stripTags badMain docSectionContent)).map (getText "\n")
      = some "X" ∧
    ("B" : String) ≠ "X" :=
  ⟨by decide, by decide, by decide⟩

/-- Claim C4, amended: the main-content source element is the first available
of, in priority order: a `main` element, an `article` element, the first
`div` element (not any tag) whose class list contains the substring "content"
case-insensitively, and finally the document body; the extracted string is
the truncated text of that candidate, sentinel when empty or absent. -/
theorem claim4_main_priority (soup : NodeList) :
    mainCandidate soup = specMainCandidateDiv soup ∧
    (extract_main_content soup).1 =
      (match mainCandidate (NodeList.stripTags badMain soup) with
       | some mc =>
           if getText "\n" mc != "" then pyTake 3000 (getText "\n" mc)
           else "No main content found"
       | none => "No main content found") := by
  constructor
  · unfold mainCandidate specMainCandidateDiv
    cases h1 : findTag soup "main" <;>
      cases h2 : findTag soup "article" <;>
        cases h3 : soup.preorder.find? (fun n => n.tagIs "div" && classHasContent (n.attr "class")) <;>
          rfl
  · rfl

/-- Claim C5: link extraction filters a fixed window of the first 15 anchors
(with `href`) in document order — dropped candidates do not extend the
window — every kept entry has non-empty anchor text and a non-fragment
`href`, and the field is the sentinel when nothing survives; within
`scrape_website` this runs on the soup left by main-content extraction. -/
theorem claim5_link_window (soup : NodeList) :
    (scrape_website soup).1.links = extract_links (NodeList.stripTags badMain soup) ∧
    (linkWindow soup).length ≤ 15 ∧
    keptLinks soup = (linkWindow soup).filter
      (fun link => linkText link != "" && !pyStarts (linkHref link) "#") ∧
    extract_links soup =
      (if (keptLinks soup).length = 0 then "No links found"
       else pyJoin "\n" ((keptLinks soup).map fmtLink)) ∧
    (∀ link ∈ keptLinks soup, linkText link ≠ "" ∧ pyStarts (linkHref link) "#" = false) := by
  refine ⟨rfl, ?_, rfl, ?_, ?_⟩
  · show ((anchorsOf soup).take 15).length ≤ 15
    rw [List.length_take]
    exact min_le_left _ _
  · unfold extract_links
    by_cases h : keptLinks soup = []
    · simp [h]
    · have hm : (keptLinks soup).map fmtLink ≠ [] := by simpa using h
      have hlen : (keptLinks soup).length ≠ 0 := by simpa [List.length_eq_zero] using h
      simp [hm, hlen]
  · intro link hlink
    have hp := List.of_mem_filter (p := fun link => linkText link != "" && !pyStarts (linkHref link) "#") hlink
    simp only [Bool.and_eq_true, bne_iff_ne, ne_eq, Bool.not_eq_true'] at hp
    exact ⟨hp.1, hp.2⟩

/-- Claim C5, witness at a concrete page with one qualifying anchor. -/
theorem claim5_witness :
    linkText aboutAnchor ≠ "" ∧ pyStarts (linkHref aboutAnchor) "#" = false := by
  have hmem : aboutAnchor ∈ keptLinks docOneLink := by
    have h : keptLinks docOneLink = [aboutAnchor] := rfl
    rw [h]
    exact List.mem_singleton.mpr rfl
  exact (claim5_link_window docOneLink).2.2.2.2 aboutAnchor hmem

/-- Claim C6: when the completion collaborator fails, `get_response` leaves
the state (in particular the history) unchanged and returns a string marked
as an error that carries the underlying failure reason; no exception reaches
the caller (the function is total). -/
theorem claim6_provider_failure (st : ChatbotState) (user_input e : String)
    (api : List Msg → Except String String)
    (h : api (prepare_messages st user_input) = Except.error e) :
    (get_response st user_input api).2 = st ∧
    (get_response st user_input api).2.conversation_history = st.conversation_history ∧
    (get_response st user_input api).1 = "❌ Error generating response: " ++ e := by
  simp [get_response, h]

/-- Claim C6, witness: a concrete timeout failure. -/
theorem claim6_witness :
    (get_response (initState "ctx") "q" (fun _ => Except.error "timeout")).2 = initState "ctx" ∧
    (get_response (initState "ctx") "q" (fun _ => Except.error "timeout")).2.conversation_history
      = (initState "ctx").conversation_history ∧
    (get_response (initState "ctx") "q" (fun _ => Except.error "timeout")).1
      = "❌ Error generating response: " ++ "timeout" :=
  claim6_provider_failure (initState "ctx") "q" "timeout" (fun _ => Except.error "timeout") rfl

/-- Claim C7: starting from an empty history, the history length stays even
under any sequence of answer and clear operations; a successful answer
appends exactly the user question then the assistant answer (+2 entries), a
failed answer appends nothing, and the history portion of every assembled
prompt is the most recent at-most-10 entries of the history. -/
theorem claim7_history_invariants :
    (∀ (ctx : String) (ops : List ChatOp),
        (runChat (initState ctx) ops).conversation_history.length % 2 = 0) ∧
    (∀ (st : ChatbotState) (user_input c : String) (api : List Msg → Except String String),
        api (prepare_messages st user_input) = Except.ok c →
        (get_response st user_input api).2.conversation_history
          = st.conversation_history ++
              [{ role := "user", content := user_input },
               { role := "assistant", content := pyStrip c }] ∧
        (get_response st user_input api).2.conversation_history.length
          = st.conversation_history.length + 2) ∧
    (∀ (st : ChatbotState) (user_input e : String) (api : List Msg → Except String String),
        api (prepare_messages st user_input) = Except.error e →
        (get_response st user_input api).2.conversation_history = st.conversation_history) ∧
    (∀ (st : ChatbotState) (user_input : String),
        prepare_messages st user_input
          = [{ role := "system", content := system_message st.website_content }] ++
              lastEntries 10 st.conversation_history ++
              [{ role := "user", content := user_input }] ∧
        (lastEntries 10 st.conversation_history).length ≤ 10 ∧
        st.conversation_history.take (st.conversation_history.length - 10) ++
            lastEntries 10 st.conversation_history = st.conversation_history) := by
  refine ⟨?_, ?_, ?_, ?_⟩
  · intro ctx ops
    exact runChat_parity ops (initState ctx) rfl
  · intro st user_input c api h
    constructor
    · simp [get_response, h]
    · simp [get_response, h, List.length_append]
  · intro st user_input e api h
    simp [get_response, h]
  · intro st user_input
    refine ⟨rfl, ?_, ?_⟩
    · show (st.conversation_history.drop (st.conversation_history.length - 10)).length ≤ 10
      rw [List.length_drop]
      omega
    · exact List.take_append_drop _ _

/-- Claim C7, witness: a concrete successful call grows the empty history to
length 2. -/
theorem claim7_witness :
    (get_response (initState "ctx") "q" (fun _ => Except.ok " a ")).2.conversation_history.length
      = (initState "ctx").conversation_history.length + 2 :=
  (claim7_history_invariants.2.1 (initState "ctx") "q" " a "
    (fun _ => Except.ok " a ") rfl).2

/-- Claim C8: headings are gathered level 1 to 6 in increasing order
(document order within a level), formatted as H-level lines, capped at 20
entries taken from the front of the level-sorted list (so lower levels fill
the cap), sentinel when none; within `scrape_website` this runs on the soup
left by main-content extraction. -/
theorem claim8_heading_order (soup : NodeList) :
    (scrape_website soup).1.headings = extract_headings (NodeList.stripTags badMain soup) ∧
    extract_headings soup =
      (if headingPairs soup = [] then "No headings found"
       else pyJoin "\n" (((headingPairs soup).take 20).map fmtHeading)) ∧
    ((headingPairs soup).take 20).length ≤ 20 ∧
    (headingPairs soup).Pairwise (fun p q => p.1 ≤ q.1) := by
  refine ⟨rfl, ?_, ?_, headingPairs_pairwise soup⟩
  · unfold extract_headings
    by_cases h : headingPairs soup = []
    · simp [h]
    · have hm : (headingPairs soup).map fmtHeading ≠ [] := by simpa using h
      simp [h, hm, List.map_take]
  · rw [List.length_take]
    exact min_le_left _ _

/-- Claim C9: the main-content field never exceeds 3000 characters and the
full-text field never exceeds 5000 characters. -/
theorem claim9_truncation (soup : NodeList) :
    (scrape_website soup).1.main_content.length ≤ 3000 ∧
    (scrape_website soup).1.full_text.length ≤ 5000 :=
  ⟨extract_main_content_len soup, extract_full_text_len ((extract_main_content soup).2)⟩

/-- Claim C10: main-content extraction strips script/style/nav/footer/header
from the shared soup before headings, links and full text are extracted, so
those three fields are computed from a tree that contains no such element;
the elements of that tree are exactly the original elements not inside (or
themselves) a bad-tagged element, and its text segments are exactly the
original text segments not inside a bad-tagged element, both in document
order. -/
theorem claim10_strip_isolation (soup : NodeList) :
    (scrape_website soup).1.headings = extract_headings (NodeList.stripTags badMain soup) ∧
    (scrape_website soup).1.links = extract_links (NodeList.stripTags badMain soup) ∧
    (scrape_website soup).1.full_text
      = (extract_full_text (NodeList.stripTags badMain soup)).1 ∧
    NodeList.stripTags badFull (NodeList.stripTags badMain soup)
      = NodeList.stripTags badMain soup ∧
    NodeList.noBadTags badMain (NodeList.stripTags badMain soup) = true ∧
    (NodeList.stripTags badMain soup).preorder.filterMap Node.sig
      = NodeList.elemSigs (NodeList.stripTags badMain soup) ∧
    NodeList.elemSigs (NodeList.stripTags badMain soup)
      = ((NodeList.elemSigsF badMain false soup).filter (fun p => !p.2)).map Prod.fst ∧
    NodeList.strings (NodeList.stripTags badMain soup)
      = ((NodeList.stringsF badMain false soup).filter (fun p => !p.2)).map Prod.fst := by
  have h1 : NodeList.noBadTags badMain (NodeList.stripTags badMain soup) = true :=
    NodeList.noBadTags_stripTagsList badMain soup
  refine ⟨rfl, rfl, rfl,
    NodeList.stripTags_of_noBadList badMain badFull badFull_sub_badMain _ h1, h1,
    NodeList.elemSigs_preorderList _,
    NodeList.elemSigs_stripTagsList badMain soup,
    NodeList.strings_stripTagsList badMain soup⟩
